import Mathlib

/-!
Shallow embedding of the Telegram paid-community invite service
(src/server.js) and proofs about its request-lifecycle state machine.

The service keeps two Firestore collections: `invite_requests` (one
document per invite request) and `invite_lookup` (one document per issued
invite link, keyed by the sha256 hash of the link). Three HTTP handlers
mutate this state:
  - POST /v1/invite/request   (embedded as `inviteRequest`)
  - POST /v1/invite/worker    (embedded as `processStep`)
  - POST /v1/telegram/webhook (embedded as `telegramWebhook`)

External collaborators are modelled as inputs: the Telegram issuer
response is a value of `IssuerResponse`, the WebEngage call result is a
boolean `sinkOk`, `new Date().toISOString()` is a string parameter `t`,
`crypto.randomUUID()` is a string parameter, and the sha256 function is an
arbitrary function parameter `sha256 : String → String` (every theorem
holds for every choice of it). Firestore writes are recorded in a
`writes` trace that lists the field names of each update payload, so that
claims about which updates refresh `updatedAt` can be settled faithfully.
-/

namespace TgInvite

/-- Lifecycle status of an invite request, the `status` field of an
`invite_requests` document. -/
inductive Status where
  | QUEUED
  | PROCESSING
  | DONE
  | FAILED
deriving DecidableEq, Repr

/-- `const MAX_ATTEMPTS = 50` in src/server.js. -/
def MAX_ATTEMPTS : Nat := 50

/-- An `invite_requests` document. Fields that the code only sets later
(`inviteLink`, `joinedAt`, `telegramUserId`) are `Option`-valued and start
absent. -/
structure RequestDoc where
  requestId : String
  userId : String
  transactionId : String
  status : Status
  attempts : Nat
  createdAt : String
  updatedAt : String
  weLinkEventFired : Bool
  joinEventFired : Bool
  inviteLink : Option String
  joinedAt : Option String
  telegramUserId : Option Nat
deriving DecidableEq, Repr

/-- An `invite_lookup` document (keyed by `sha256(inviteLink)`). -/
structure LookupDoc where
  inviteLink : String
  requestId : String
  userId : String
  transactionId : String
  createdAt : String
deriving DecidableEq, Repr

/-- The persistent state: the two Firestore collections, each a partial
map from document id to document. -/
structure WorldState where
  reqs : String → Option RequestDoc
  lookup : String → Option LookupDoc

/-- Write a document into a request collection map. -/
def setReq (f : String → Option RequestDoc) (k : String) (v : RequestDoc) :
    String → Option RequestDoc :=
  fun q => if q = k then some v else f q

/-- Write a document into a lookup collection map. -/
def setLookup (f : String → Option LookupDoc) (k : String) (v : LookupDoc) :
    String → Option LookupDoc :=
  fun q => if q = k then some v else f q

@[simp] theorem setReq_same (f : String → Option RequestDoc) (k : String)
    (v : RequestDoc) : setReq f k v k = some v := by
  simp [setReq]

@[simp] theorem setReq_other (f : String → Option RequestDoc) (k q : String)
    (v : RequestDoc) (h : q ≠ k) : setReq f k v q = f q := by
  simp [setReq, h]

@[simp] theorem setLookup_same (f : String → Option LookupDoc) (k : String)
    (v : LookupDoc) : setLookup f k v k = some v := by
  simp [setLookup]

@[simp] theorem setLookup_other (f : String → Option LookupDoc) (k q : String)
    (v : LookupDoc) (h : q ≠ k) : setLookup f k v q = f q := by
  simp [setLookup, h]

@[simp] theorem setReq_setReq (f : String → Option RequestDoc) (k : String)
    (v v' : RequestDoc) : setReq (setReq f k v) k v' = setReq f k v' := by
  funext q
  by_cases h : q = k <;> simp [setReq, h]

@[simp] theorem setLookup_setLookup (f : String → Option LookupDoc)
    (k : String) (v v' : LookupDoc) :
    setLookup (setLookup f k v) k v' = setLookup f k v' := by
  funext q
  by_cases h : q = k <;> simp [setLookup, h]

/-- The world with both collections empty. -/
def emptyWorld : WorldState := ⟨fun _ => none, fun _ => none⟩

/-- Outcome of `createTelegramLink`: either `tg.ok` is false (the only
failure data the worker reads is `tg.json?.parameters?.retry_after`,
absent values included), or `tg.ok` is true with
`tg.json?.result?.invite_link`. -/
inductive IssuerResponse where
  | rateLimited (retry_after : Option Nat)
  | success (invite_link : String)
deriving DecidableEq, Repr

/-- `Number(tg.json?.parameters?.retry_after) || 10`: an absent hint gives
`NaN`, which is falsy, and a `0` hint is falsy too; both fall back to 10. -/
def retryAfterOf : Option Nat → Nat
  | none => 10
  | some n => if n = 0 then 10 else n

/-- Whether the issuer answered with `ok = false`. -/
def IssuerResponse.isRateLimited : IssuerResponse → Bool
  | .rateLimited _ => true
  | .success _ => false

/-- One Firestore write to the `invite_requests` collection: the target
document id and the field names present in the update payload. -/
structure ReqWrite where
  requestId : String
  fields : List String
deriving DecidableEq, Repr

/-- Result of one handler invocation: the world afterwards, the Cloud
Tasks enqueues `(requestId, delaySec)` it performed, the WebEngage events
`(userId, eventName)` it fired, the request-collection writes it issued,
and the HTTP response body. -/
structure StepResult where
  world : WorldState
  schedules : List (String × Nat)
  events : List (String × String)
  writes : List ReqWrite
  response : String

/-- JS truthiness of a possibly-absent string (`undefined` and `""` are
falsy). -/
def truthyStr : Option String → Bool
  | none => false
  | some s => !(s == "")

/-- JS truthiness of a possibly-absent number (`undefined` and `0` are
falsy). -/
def truthyNat : Option Nat → Bool
  | none => false
  | some n => !(n == 0)

/-- Response of POST /v1/invite/request. -/
inductive CreateResponse where
  | badRequest (error : String)
  | success (ok : Bool) (status : String) (requestId : String)
deriving DecidableEq, Repr

/-- Result of one create-endpoint invocation. -/
structure CreateResult where
  world : WorldState
  schedules : List (String × Nat)
  writes : List ReqWrite
  response : CreateResponse

/-- POST /v1/invite/request. `crypto.randomUUID()` is modelled by the
`requestId` parameter and `now()` by `t`. A missing or empty `userId` is
rejected with a 400 before any state is touched; otherwise one document
is written (with `transactionId` defaulting to `""`), one immediate
worker task is enqueued, and the accepted response is returned. -/
def inviteRequest (w : WorldState) (userId transactionId : Option String)
    (requestId t : String) : CreateResult :=
  if truthyStr userId = false then
    ⟨w, [], [], .badRequest "Missing userId"⟩
  else
    let doc : RequestDoc :=
      { requestId := requestId
        userId := userId.getD ""
        transactionId := transactionId.getD ""
        status := .QUEUED
        attempts := 0
        createdAt := t
        updatedAt := t
        weLinkEventFired := false
        joinEventFired := false
        inviteLink := none
        joinedAt := none
        telegramUserId := none }
    ⟨{ w with reqs := setReq w.reqs requestId doc },
     [(requestId, 0)],
     [⟨requestId, ["requestId", "userId", "transactionId", "status",
        "attempts", "createdAt", "updatedAt", "weLinkEventFired",
        "joinEventFired"]⟩],
     .success true "queued" requestId⟩

/-- POST /v1/invite/worker, after the Cloud-Tasks-header and
missing-requestId guards. Mirrors src/server.js lines 146-216: load the
document (absent → no-op), short-circuit on DONE, fail past the attempt
ceiling, otherwise mark PROCESSING with the incremented attempt count,
call the issuer, and either revert to QUEUED and reschedule after the
retry hint, or store the lookup entry, mark DONE, and fire the
link-created event once. -/
def processStep (sha256 : String → String) (w : WorldState)
    (requestId : String) (issuer : IssuerResponse) (sinkOk : Bool)
    (t : String) : StepResult :=
  match w.reqs requestId with
  | none => ⟨w, [], [], [], "ok"⟩
  | some doc =>
    if doc.status = Status.DONE then ⟨w, [], [], [], "ok"⟩
    else
      let attempts := doc.attempts + 1
      if MAX_ATTEMPTS < attempts then
        let docF := { doc with status := Status.FAILED, updatedAt := t }
        ⟨{ w with reqs := setReq w.reqs requestId docF },
         [], [], [⟨requestId, ["status", "updatedAt"]⟩], "ok"⟩
      else
        let doc1 := { doc with
          status := Status.PROCESSING, attempts := attempts, updatedAt := t }
        let w1 : WorldState := { w with reqs := setReq w.reqs requestId doc1 }
        let wr1 : ReqWrite := ⟨requestId, ["status", "attempts", "updatedAt"]⟩
        match issuer with
        | .rateLimited hint =>
          let doc2 := { doc1 with status := Status.QUEUED }
          ⟨{ w1 with reqs := setReq w1.reqs requestId doc2 },
           [(requestId, retryAfterOf hint)], [],
           [wr1, ⟨requestId, ["status"]⟩], "retry scheduled"⟩
        | .success link =>
          let inviteHash := sha256 link
          let entry : LookupDoc := ⟨link, requestId, doc.userId, doc.transactionId, t⟩
          let w2 : WorldState := { w1 with lookup := setLookup w1.lookup inviteHash entry }
          let doc3 := { doc1 with
            status := Status.DONE, inviteLink := some link, updatedAt := t }
          let w3 : WorldState := { w2 with reqs := setReq w2.reqs requestId doc3 }
          let wr3 : ReqWrite := ⟨requestId, ["status", "inviteLink", "updatedAt"]⟩
          if doc.weLinkEventFired then ⟨w3, [], [], [wr1, wr3], "ok"⟩
          else
            let doc4 := { doc3 with weLinkEventFired := sinkOk }
            ⟨{ w3 with reqs := setReq w3.reqs requestId doc4 },
             [], [(doc.userId, "pass_paid_community_telegram_link_created")],
             [wr1, wr3, ⟨requestId, ["weLinkEventFired"]⟩], "ok"⟩

/-- The fields the webhook reads out of `chat_member` /
`my_chat_member`: `invite_link.invite_link`, `new_chat_member.status`,
`new_chat_member.user.id`, each possibly absent. -/
structure MemberUpdate where
  invite_link : Option String
  status : Option String
  userId : Option Nat
deriving DecidableEq, Repr

/-- The webhook request body: either update object may be present. -/
structure WebhookBody where
  chat_member : Option MemberUpdate
  my_chat_member : Option MemberUpdate
deriving DecidableEq, Repr

/-- `req.body.chat_member || req.body.my_chat_member`. -/
def bodyUpd (b : WebhookBody) : Option MemberUpdate :=
  match b.chat_member with
  | some u => some u
  | none => b.my_chat_member

/-- The status markers accepted by the webhook. -/
def memberStatuses : List String := ["member", "administrator", "creator"]

/-- `["member","administrator","creator"].includes(status)` (false for an
absent status). -/
def statusRecognized : Option String → Bool
  | none => false
  | some s => memberStatuses.contains s

/-- The validity check of src/server.js lines 229-236: the update must
carry a truthy invite link, a truthy user id, and a recognized status. -/
def validSignal (upd : MemberUpdate) : Bool :=
  truthyStr upd.invite_link && truthyNat upd.userId &&
    statusRecognized upd.status

/-- POST /v1/telegram/webhook. Mirrors src/server.js lines 221-277:
ignore bodies without a member update or with an invalid signal, answer
"orphan" when the invite hash has no lookup entry, no-op when the request
document is gone or the join event already fired, otherwise fire the
joined event and record its success, the redeemer and the join time. -/
def telegramWebhook (sha256 : String → String) (w : WorldState)
    (body : WebhookBody) (sinkOk : Bool) (t : String) : StepResult :=
  match bodyUpd body with
  | none => ⟨w, [], [], [], "ignored"⟩
  | some upd =>
    if validSignal upd = false then ⟨w, [], [], [], "ignored"⟩
    else
      let link := upd.invite_link.getD ""
      let uid := upd.userId.getD 0
      let inviteHash := sha256 link
      match w.lookup inviteHash with
      | none => ⟨w, [], [], [], "orphan"⟩
      | some entry =>
        match w.reqs entry.requestId with
        | none => ⟨w, [], [], [], "ok"⟩
        | some reqDoc =>
          if reqDoc.joinEventFired then ⟨w, [], [], [], "ok"⟩
          else
            let doc1 := { reqDoc with
              joinEventFired := sinkOk
              joinedAt := some t
              telegramUserId := some uid
              updatedAt := t }
            ⟨{ w with reqs := setReq w.reqs entry.requestId doc1 },
             [], [(reqDoc.userId, "pass_paid_community_telegram_joined")],
             [⟨entry.requestId, ["joinEventFired", "joinedAt",
                "telegramUserId", "updatedAt"]⟩], "ok"⟩

/-- One external trigger of the service: a create call, a worker step, or
a webhook delivery, together with the modelled collaborator responses. -/
inductive Op where
  | createOp (userId transactionId : Option String) (requestId t : String)
  | workerOp (requestId : String) (issuer : IssuerResponse) (sinkOk : Bool)
      (t : String)
  | webhookOp (body : WebhookBody) (sinkOk : Bool) (t : String)

/-- The world after one trigger. -/
def applyOp (sha256 : String → String) (w : WorldState) : Op → WorldState
  | .createOp userId transactionId requestId t =>
      (inviteRequest w userId transactionId requestId t).world
  | .workerOp requestId issuer sinkOk t =>
      (processStep sha256 w requestId issuer sinkOk t).world
  | .webhookOp body sinkOk t =>
      (telegramWebhook sha256 w body sinkOk t).world

/-- The world after a sequence of triggers. -/
def runOps (sha256 : String → String) (w : WorldState) : List Op → WorldState
  | [] => w
  | op :: ops => runOps sha256 (applyOp sha256 w op) ops

/-- Inputs of one worker step (issuer response, WebEngage result,
timestamp). -/
structure WorkerInput where
  issuer : IssuerResponse
  sinkOk : Bool
  t : String
deriving DecidableEq, Repr

/-- The world after a sequence of worker steps for one request. -/
def workerRun (sha256 : String → String) (w : WorldState) (requestId : String) :
    List WorkerInput → WorldState
  | [] => w
  | i :: is =>
      workerRun sha256 (processStep sha256 w requestId i.issuer i.sinkOk i.t).world
        requestId is

/-- Every issuer response in the run is rate-limited. -/
def allRateLimited (inputs : List WorkerInput) : Prop :=
  ∀ i ∈ inputs, i.issuer.isRateLimited = true

instance (inputs : List WorkerInput) : Decidable (allRateLimited inputs) := by
  unfold allRateLimited
  infer_instance

/-- Inputs of one webhook delivery. -/
structure WebhookInput where
  body : WebhookBody
  sinkOk : Bool
  t : String
deriving DecidableEq, Repr

/-- The world after a sequence of webhook deliveries. -/
def webhookRun (sha256 : String → String) (w : WorldState) :
    List WebhookInput → WorldState
  | [] => w
  | i :: is =>
      webhookRun sha256 (telegramWebhook sha256 w i.body i.sinkOk i.t).world is

/-- A concrete hash function used to instantiate witnesses (the theorems
hold for every `sha256` parameter). -/
def hashId : String → String := fun s => s

/-! ### Branch lemmas for the worker step -/

/-- A worker step for an absent document is a complete no-op. -/
theorem processStep_absent (sha256 : String → String) (w : WorldState)
    (rid : String) (issuer : IssuerResponse) (sinkOk : Bool) (t : String)
    (hdoc : w.reqs rid = none) :
    processStep sha256 w rid issuer sinkOk t = ⟨w, [], [], [], "ok"⟩ := by
  simp [processStep, hdoc]

/-- A worker step for a DONE document is a complete no-op. -/
theorem processStep_done (sha256 : String → String) (w : WorldState)
    (rid : String) (doc : RequestDoc) (issuer : IssuerResponse)
    (sinkOk : Bool) (t : String) (hdoc : w.reqs rid = some doc)
    (hst : doc.status = Status.DONE) :
    processStep sha256 w rid issuer sinkOk t = ⟨w, [], [], [], "ok"⟩ := by
  simp [processStep, hdoc, hst]

/-- A worker step past the attempt ceiling only rewrites the status to
FAILED (plus the timestamp), schedules nothing and fires nothing. -/
theorem processStep_ceiling (sha256 : String → String) (w : WorldState)
    (rid : String) (doc : RequestDoc) (issuer : IssuerResponse)
    (sinkOk : Bool) (t : String) (hdoc : w.reqs rid = some doc)
    (hst : doc.status ≠ Status.DONE)
    (hatt : MAX_ATTEMPTS < doc.attempts + 1) :
    processStep sha256 w rid issuer sinkOk t =
      ⟨⟨setReq w.reqs rid { doc with
          status := Status.FAILED
          updatedAt := t },
        w.lookup⟩,
       [], [], [⟨rid, ["status", "updatedAt"]⟩], "ok"⟩ := by
  simp [processStep, hdoc, hst, hatt]

/-- A worker step under the ceiling whose issuer call is rate limited:
the stored document ends QUEUED with the incremented attempt count, and
exactly one delayed retry is enqueued. -/
theorem processStep_rateLimited (sha256 : String → String) (w : WorldState)
    (rid : String) (doc : RequestDoc) (hint : Option Nat) (sinkOk : Bool)
    (t : String) (hdoc : w.reqs rid = some doc)
    (hst : doc.status ≠ Status.DONE)
    (hatt : doc.attempts + 1 ≤ MAX_ATTEMPTS) :
    processStep sha256 w rid (IssuerResponse.rateLimited hint) sinkOk t =
      ⟨⟨setReq w.reqs rid { doc with
          status := Status.QUEUED
          attempts := doc.attempts + 1
          updatedAt := t },
        w.lookup⟩,
       [(rid, retryAfterOf hint)], [],
       [⟨rid, ["status", "attempts", "updatedAt"]⟩, ⟨rid, ["status"]⟩],
       "retry scheduled"⟩ := by
  have hc : ¬ MAX_ATTEMPTS < doc.attempts + 1 := by omega
  simp [processStep, hdoc, hst, hc]

/-- A successful worker step under the ceiling: the lookup collection
gains the entry for the hash of the issued link, pointing back at the
request. -/
theorem processStep_success_lookup (sha256 : String → String)
    (w : WorldState) (rid : String) (doc : RequestDoc) (link : String)
    (sinkOk : Bool) (t : String) (hdoc : w.reqs rid = some doc)
    (hst : doc.status ≠ Status.DONE)
    (hatt : doc.attempts + 1 ≤ MAX_ATTEMPTS) :
    (processStep sha256 w rid (IssuerResponse.success link) sinkOk t).world.lookup =
      setLookup w.lookup (sha256 link)
        ⟨link, rid, doc.userId, doc.transactionId, t⟩ := by
  have hc : ¬ MAX_ATTEMPTS < doc.attempts + 1 := by omega
  by_cases hfl : doc.weLinkEventFired <;>
    simp [processStep, hdoc, hst, hc, hfl]

/-- A successful worker step under the ceiling: the stored document ends
DONE with the incremented attempt count, the issued link, and the
link-event flag ORed with the notification result. -/
theorem processStep_success_reqs (sha256 : String → String)
    (w : WorldState) (rid : String) (doc : RequestDoc) (link : String)
    (sinkOk : Bool) (t : String) (hdoc : w.reqs rid = some doc)
    (hst : doc.status ≠ Status.DONE)
    (hatt : doc.attempts + 1 ≤ MAX_ATTEMPTS) :
    (processStep sha256 w rid (IssuerResponse.success link) sinkOk t).world.reqs =
      setReq w.reqs rid { doc with
        status := Status.DONE
        attempts := doc.attempts + 1
        updatedAt := t
        inviteLink := some link
        weLinkEventFired := doc.weLinkEventFired || sinkOk } := by
  have hc : ¬ MAX_ATTEMPTS < doc.attempts + 1 := by omega
  by_cases hfl : doc.weLinkEventFired <;>
    simp [processStep, hdoc, hst, hc, hfl]

/-- Case analysis of the effect of one worker step on any stored
document: either it is untouched, or it is the stepped document and its
new status/attempt count arise from the FAILED branch or from one of the
two attempt-incrementing branches. -/
theorem processStep_reqs_cases (sha256 : String → String) (w : WorldState)
    (rid : String) (issuer : IssuerResponse) (sinkOk : Bool) (t : String)
    (rid' : String) :
    (processStep sha256 w rid issuer sinkOk t).world.reqs rid' = w.reqs rid' ∨
    ∃ doc doc', w.reqs rid = some doc ∧
      (processStep sha256 w rid issuer sinkOk t).world.reqs rid' = some doc' ∧
      ((doc'.status = Status.FAILED ∧ doc'.attempts = doc.attempts ∧
          MAX_ATTEMPTS < doc.attempts + 1) ∨
       (doc'.attempts = doc.attempts + 1 ∧ doc.attempts + 1 ≤ MAX_ATTEMPTS ∧
          (doc'.status = Status.QUEUED ∨ doc'.status = Status.DONE))) := by
  rcases hw : w.reqs rid with _ | doc
  · left
    rw [processStep_absent sha256 w rid issuer sinkOk t hw]
  by_cases hdone : doc.status = Status.DONE
  · left
    rw [processStep_done sha256 w rid doc issuer sinkOk t hw hdone]
  by_cases hc : MAX_ATTEMPTS < doc.attempts + 1
  · rw [processStep_ceiling sha256 w rid doc issuer sinkOk t hw hdone hc]
    by_cases hr : rid' = rid
    · subst hr
      right
      refine ⟨doc, { doc with
        status := Status.FAILED
        updatedAt := t }, rfl, by simp, Or.inl ⟨rfl, rfl, hc⟩⟩
    · left
      simp [setReq_other _ _ _ _ hr]
  have hatt : doc.attempts + 1 ≤ MAX_ATTEMPTS := by omega
  cases issuer with
  | rateLimited hint =>
    rw [processStep_rateLimited sha256 w rid doc hint sinkOk t hw hdone hatt]
    by_cases hr : rid' = rid
    · subst hr
      right
      refine ⟨doc, { doc with
        status := Status.QUEUED
        attempts := doc.attempts + 1
        updatedAt := t }, rfl, by simp, Or.inr ⟨rfl, hatt, Or.inl rfl⟩⟩
    · left
      simp [setReq_other _ _ _ _ hr]
  | success link =>
    have hreqs := processStep_success_reqs sha256 w rid doc link sinkOk t hw hdone hatt
    by_cases hr : rid' = rid
    · subst hr
      right
      refine ⟨doc, { doc with
        status := Status.DONE
        attempts := doc.attempts + 1
        updatedAt := t
        inviteLink := some link
        weLinkEventFired := doc.weLinkEventFired || sinkOk }, rfl, ?_,
        Or.inr ⟨rfl, hatt, Or.inr rfl⟩⟩
      rw [hreqs]
      simp
    · left
      rw [hreqs]
      simp [setReq_other _ _ _ _ hr]

/-! ### Branch lemmas for the webhook handler -/

/-- A webhook delivery whose signal reaches a request whose join event
has not fired yet: the single WebEngage join event is fired, and the
document records the result flag, the join time and the redeemer id. -/
theorem telegramWebhook_fire (sha256 : String → String) (w : WorldState)
    (body : WebhookBody) (upd : MemberUpdate) (entry : LookupDoc)
    (reqDoc : RequestDoc) (sinkOk : Bool) (t : String)
    (hb : bodyUpd body = some upd) (hv : validSignal upd = true)
    (hl : w.lookup (sha256 (upd.invite_link.getD "")) = some entry)
    (hr : w.reqs entry.requestId = some reqDoc)
    (hj : reqDoc.joinEventFired = false) :
    telegramWebhook sha256 w body sinkOk t =
      ⟨⟨setReq w.reqs entry.requestId { reqDoc with
          joinEventFired := sinkOk
          joinedAt := some t
          telegramUserId := some (upd.userId.getD 0)
          updatedAt := t },
        w.lookup⟩,
       [], [(reqDoc.userId, "pass_paid_community_telegram_joined")],
       [⟨entry.requestId, ["joinEventFired", "joinedAt", "telegramUserId",
          "updatedAt"]⟩], "ok"⟩ := by
  simp [telegramWebhook, hb, hv, hl, hr, hj]

/-- A webhook delivery whose signal reaches a request whose join event
already fired is a complete no-op. -/
theorem telegramWebhook_joined_noop (sha256 : String → String)
    (w : WorldState) (body : WebhookBody) (upd : MemberUpdate)
    (entry : LookupDoc) (reqDoc : RequestDoc) (sinkOk : Bool) (t : String)
    (hb : bodyUpd body = some upd) (hv : validSignal upd = true)
    (hl : w.lookup (sha256 (upd.invite_link.getD "")) = some entry)
    (hr : w.reqs entry.requestId = some reqDoc)
    (hj : reqDoc.joinEventFired = true) :
    telegramWebhook sha256 w body sinkOk t = ⟨w, [], [], [], "ok"⟩ := by
  simp [telegramWebhook, hb, hv, hl, hr, hj]

/-- Case analysis of the effect of one webhook delivery on any stored
document: either it is untouched, or only its join-event bookkeeping
fields change; status and attempt count are never modified. -/
theorem telegramWebhook_reqs_cases (sha256 : String → String)
    (w : WorldState) (body : WebhookBody) (sinkOk : Bool) (t : String)
    (rid' : String) :
    (telegramWebhook sha256 w body sinkOk t).world.reqs rid' = w.reqs rid' ∨
    ∃ doc doc', w.reqs rid' = some doc ∧
      (telegramWebhook sha256 w body sinkOk t).world.reqs rid' = some doc' ∧
      doc'.status = doc.status ∧ doc'.attempts = doc.attempts := by
  rcases hb : bodyUpd body with _ | upd
  · left
    simp [telegramWebhook, hb]
  by_cases hv : validSignal upd = false
  · left
    simp [telegramWebhook, hb, hv]
  have hv' : validSignal upd = true := by
    revert hv
    cases validSignal upd <;> simp
  rcases hl : w.lookup (sha256 (upd.invite_link.getD "")) with _ | entry
  · left
    simp [telegramWebhook, hb, hv', hl]
  rcases hr : w.reqs entry.requestId with _ | reqDoc
  · left
    simp [telegramWebhook, hb, hv', hl, hr]
  by_cases hj : reqDoc.joinEventFired = true
  · left
    rw [telegramWebhook_joined_noop sha256 w body upd entry reqDoc sinkOk t hb hv' hl hr hj]
  have hj' : reqDoc.joinEventFired = false := by
    revert hj
    cases reqDoc.joinEventFired <;> simp
  rw [telegramWebhook_fire sha256 w body upd entry reqDoc sinkOk t hb hv' hl hr hj']
  by_cases he : rid' = entry.requestId
  · subst he
    right
    refine ⟨reqDoc, { reqDoc with
      joinEventFired := sinkOk
      joinedAt := some t
      telegramUserId := some (upd.userId.getD 0)
      updatedAt := t }, hr, by simp, rfl, rfl⟩
  · left
    simp [setReq_other _ _ _ _ he]

/-- Case analysis of the effect of one create call on any stored
document: either it is untouched, or it is the freshly written QUEUED
document with zero attempts. -/
theorem inviteRequest_reqs_cases (w : WorldState)
    (userId transactionId : Option String) (rid t : String)
    (rid' : String) :
    (inviteRequest w userId transactionId rid t).world.reqs rid' = w.reqs rid' ∨
    ∃ doc', (inviteRequest w userId transactionId rid t).world.reqs rid' = some doc' ∧
      doc'.status = Status.QUEUED ∧ doc'.attempts = 0 := by
  by_cases hu : truthyStr userId = false
  · left
    simp [inviteRequest, hu]
  by_cases hr : rid' = rid
  · subst hr
    right
    refine ⟨{ requestId := rid'
              userId := userId.getD ""
              transactionId := transactionId.getD ""
              status := Status.QUEUED
              attempts := 0
              createdAt := t
              updatedAt := t
              weLinkEventFired := false
              joinEventFired := false
              inviteLink := none
              joinedAt := none
              telegramUserId := none }, ?_, rfl, rfl⟩
    simp [inviteRequest, hu]
  · left
    simp [inviteRequest, hu, setReq_other _ _ _ _ hr]

/-! ### Reachability invariants -/

/-- Every stored attempt count is at most the ceiling. -/
def AttemptsInv (w : WorldState) : Prop :=
  ∀ rid doc, w.reqs rid = some doc → doc.attempts ≤ MAX_ATTEMPTS

/-- Every stored FAILED document already carries the full attempt count
(the ceiling), because the FAILED branch is only reachable from such a
count and never writes `attempts`. -/
def FailedInv (w : WorldState) : Prop :=
  ∀ rid doc, w.reqs rid = some doc → doc.status = Status.FAILED →
    MAX_ATTEMPTS ≤ doc.attempts

theorem applyOp_attemptsInv (sha256 : String → String) (w : WorldState)
    (op : Op) (h : AttemptsInv w) : AttemptsInv (applyOp sha256 w op) := by
  intro rid doc hdoc
  cases op with
  | createOp userId transactionId rid₀ t =>
    rcases inviteRequest_reqs_cases w userId transactionId rid₀ t rid with
        heq | ⟨doc', hd', _, ha'⟩
    · rw [applyOp] at hdoc
      rw [heq] at hdoc
      exact h rid doc hdoc
    · rw [applyOp] at hdoc
      rw [hdoc] at hd'
      cases hd'
      rw [ha']
      omega
  | workerOp rid₀ issuer sinkOk t =>
    rcases processStep_reqs_cases sha256 w rid₀ issuer sinkOk t rid with
        heq | ⟨doc₀, doc', hd₀, hd', hcases⟩
    · rw [applyOp] at hdoc
      rw [heq] at hdoc
      exact h rid doc hdoc
    · rw [applyOp] at hdoc
      rw [hdoc] at hd'
      cases hd'
      have h₀ := h rid₀ doc₀ hd₀
      rcases hcases with ⟨_, ha, _⟩ | ⟨ha, hle, _⟩
      · omega
      · omega
  | webhookOp body sinkOk t =>
    rcases telegramWebhook_reqs_cases sha256 w body sinkOk t rid with
        heq | ⟨doc₀, doc', hd₀, hd', _, ha⟩
    · rw [applyOp] at hdoc
      rw [heq] at hdoc
      exact h rid doc hdoc
    · rw [applyOp] at hdoc
      rw [hdoc] at hd'
      cases hd'
      have h₀ := h rid doc₀ hd₀
      omega

theorem applyOp_failedInv (sha256 : String → String) (w : WorldState)
    (op : Op) (h : FailedInv w) : FailedInv (applyOp sha256 w op) := by
  intro rid doc hdoc hfail
  cases op with
  | createOp userId transactionId rid₀ t =>
    rcases inviteRequest_reqs_cases w userId transactionId rid₀ t rid with
        heq | ⟨doc', hd', hst', _⟩
    · rw [applyOp] at hdoc
      rw [heq] at hdoc
      exact h rid doc hdoc hfail
    · rw [applyOp] at hdoc
      rw [hdoc] at hd'
      cases hd'
      rw [hfail] at hst'
      cases hst'
  | workerOp rid₀ issuer sinkOk t =>
    rcases processStep_reqs_cases sha256 w rid₀ issuer sinkOk t rid with
        heq | ⟨doc₀, doc', hd₀, hd', hcases⟩
    · rw [applyOp] at hdoc
      rw [heq] at hdoc
      exact h rid doc hdoc hfail
    · rw [applyOp] at hdoc
      rw [hdoc] at hd'
      cases hd'
      rcases hcases with ⟨_, ha, hgt⟩ | ⟨_, _, hst | hst⟩
      · omega
      · rw [hfail] at hst
        cases hst
      · rw [hfail] at hst
        cases hst
  | webhookOp body sinkOk t =>
    rcases telegramWebhook_reqs_cases sha256 w body sinkOk t rid with
        heq | ⟨doc₀, doc', hd₀, hd', hst, ha⟩
    · rw [applyOp] at hdoc
      rw [heq] at hdoc
      exact h rid doc hdoc hfail
    · rw [applyOp] at hdoc
      rw [hdoc] at hd'
      cases hd'
      rw [ha]
      exact h rid doc₀ hd₀ (hst ▸ hfail)

theorem runOps_attemptsInv (sha256 : String → String) (ops : List Op) :
    ∀ w : WorldState, AttemptsInv w → AttemptsInv (runOps sha256 w ops) := by
  induction ops with
  | nil => exact fun w h => h
  | cons op ops ih =>
    intro w h
    exact ih _ (applyOp_attemptsInv sha256 w op h)

theorem runOps_failedInv (sha256 : String → String) (ops : List Op) :
    ∀ w : WorldState, FailedInv w → FailedInv (runOps sha256 w ops) := by
  induction ops with
  | nil => exact fun w h => h
  | cons op ops ih =>
    intro w h
    exact ih _ (applyOp_failedInv sha256 w op h)

theorem emptyWorld_attemptsInv : AttemptsInv emptyWorld := by
  intro rid doc hdoc
  cases hdoc

theorem emptyWorld_failedInv : FailedInv emptyWorld := by
  intro rid doc hdoc
  cases hdoc

/-! ### Runs of worker steps -/

theorem workerRun_append (sha256 : String → String) (rid : String)
    (l₁ l₂ : List WorkerInput) : ∀ w : WorldState,
    workerRun sha256 w rid (l₁ ++ l₂) =
      workerRun sha256 (workerRun sha256 w rid l₁) rid l₂ := by
  induction l₁ with
  | nil => intro w; rfl
  | cons i is ih =>
    intro w
    rw [List.cons_append, workerRun, workerRun]
    exact ih _

/-- A worker step on a stored non-DONE document whose attempt count has
reached the ceiling: the document is marked FAILED in place (attempts
untouched), nothing is scheduled, and the single write carries only the
status and the timestamp. -/
theorem processStep_from_maxed (sha256 : String → String) (w : WorldState)
    (rid : String) (doc : RequestDoc) (issuer : IssuerResponse)
    (sinkOk : Bool) (t : String) (hdoc : w.reqs rid = some doc)
    (hne : doc.status ≠ Status.DONE)
    (hmax : MAX_ATTEMPTS ≤ doc.attempts) :
    (processStep sha256 w rid issuer sinkOk t).world.reqs rid =
      some { doc with status := Status.FAILED, updatedAt := t } ∧
    (processStep sha256 w rid issuer sinkOk t).schedules = [] ∧
    (processStep sha256 w rid issuer sinkOk t).writes =
      [⟨rid, ["status", "updatedAt"]⟩] := by
  have hc : MAX_ATTEMPTS < doc.attempts + 1 := by omega
  rw [processStep_ceiling sha256 w rid doc issuer sinkOk t hdoc hne hc]
  exact ⟨by simp, rfl, rfl⟩

/-- Rate-limited worker steps below the ceiling keep the document QUEUED
and add one attempt each. -/
theorem workerRun_rateLimited (sha256 : String → String) (rid : String) :
    ∀ (inputs : List WorkerInput) (w : WorldState) (doc : RequestDoc),
      w.reqs rid = some doc → doc.status = Status.QUEUED →
      doc.attempts + inputs.length ≤ MAX_ATTEMPTS →
      allRateLimited inputs →
      ∃ doc', (workerRun sha256 w rid inputs).reqs rid = some doc' ∧
        doc'.status = Status.QUEUED ∧
        doc'.attempts = doc.attempts + inputs.length := by
  intro inputs
  induction inputs with
  | nil =>
    intro w doc hdoc hq _ _
    exact ⟨doc, hdoc, hq, by simp⟩
  | cons i is ih =>
    intro w doc hdoc hq hlen hrl
    have hi : i.issuer.isRateLimited = true := hrl i (List.mem_cons_self i is)
    have hlen' : doc.attempts + (is.length + 1) ≤ MAX_ATTEMPTS := by
      simpa using hlen
    rcases hiss : i.issuer with hint | link
    · have hne : doc.status ≠ Status.DONE := by
        rw [hq]
        decide
      have hatt : doc.attempts + 1 ≤ MAX_ATTEMPTS := by omega
      rw [workerRun, hiss,
        processStep_rateLimited sha256 w rid doc hint i.sinkOk i.t hdoc hne hatt]
      obtain ⟨doc', hd', hq', ha'⟩ := ih
        ⟨setReq w.reqs rid { doc with
            status := Status.QUEUED
            attempts := doc.attempts + 1
            updatedAt := i.t }, w.lookup⟩
        { doc with
            status := Status.QUEUED
            attempts := doc.attempts + 1
            updatedAt := i.t }
        (by simp) rfl (by dsimp only; omega)
        (fun j hj => hrl j (List.mem_cons_of_mem i hj))
      refine ⟨doc', hd', hq', ?_⟩
      rw [ha']
      simp
      omega
    · rw [hiss] at hi
      simp [IssuerResponse.isRateLimited] at hi

/-- Any worker steps on a stored FAILED document at the ceiling leave it
FAILED with the same attempt count. -/
theorem workerRun_failed (sha256 : String → String) (rid : String) :
    ∀ (inputs : List WorkerInput) (w : WorldState) (doc : RequestDoc),
      w.reqs rid = some doc → doc.status = Status.FAILED →
      MAX_ATTEMPTS ≤ doc.attempts →
      ∃ doc', (workerRun sha256 w rid inputs).reqs rid = some doc' ∧
        doc'.status = Status.FAILED ∧ doc'.attempts = doc.attempts := by
  intro inputs
  induction inputs with
  | nil =>
    intro w doc hdoc hf _
    exact ⟨doc, hdoc, hf, rfl⟩
  | cons i is ih =>
    intro w doc hdoc hf ha
    have hne : doc.status ≠ Status.DONE := by
      rw [hf]
      decide
    have hc : MAX_ATTEMPTS < doc.attempts + 1 := by omega
    rw [workerRun,
      processStep_ceiling sha256 w rid doc i.issuer i.sinkOk i.t hdoc hne hc]
    obtain ⟨doc', hd', hf', ha'⟩ := ih
      ⟨setReq w.reqs rid { doc with
          status := Status.FAILED
          updatedAt := i.t }, w.lookup⟩
      { doc with
          status := Status.FAILED
          updatedAt := i.t }
      (by simp) rfl (by simpa using ha)
    exact ⟨doc', hd', hf', ha'⟩

/-- A nonempty run of worker steps starting from a stored non-DONE
document at the attempt ceiling ends FAILED with the same attempt
count. -/
theorem workerRun_maxed (sha256 : String → String) (rid : String)
    (inputs : List WorkerInput) (w : WorldState) (doc : RequestDoc)
    (hdoc : w.reqs rid = some doc) (hne : doc.status ≠ Status.DONE)
    (hmax : MAX_ATTEMPTS ≤ doc.attempts) (hnil : inputs ≠ []) :
    ∃ doc', (workerRun sha256 w rid inputs).reqs rid = some doc' ∧
      doc'.status = Status.FAILED ∧ doc'.attempts = doc.attempts := by
  rcases inputs with _ | ⟨i, is⟩
  · exact absurd rfl hnil
  have hc : MAX_ATTEMPTS < doc.attempts + 1 := by omega
  rw [workerRun,
    processStep_ceiling sha256 w rid doc i.issuer i.sinkOk i.t hdoc hne hc]
  obtain ⟨doc', hd', hf', ha'⟩ := workerRun_failed sha256 rid is
    ⟨setReq w.reqs rid { doc with
        status := Status.FAILED
        updatedAt := i.t }, w.lookup⟩
    { doc with
        status := Status.FAILED
        updatedAt := i.t }
    (by simp) rfl (by simpa using hmax)
  exact ⟨doc', hd', hf', ha'⟩

/-! ### Concrete fixtures for witnesses and counterexamples -/

/-- The world after one successful create call. -/
def wFresh : WorldState :=
  (inviteRequest emptyWorld (some "u1") (some "txn") "r1" "t0").world

/-- The freshly created document stored in `wFresh`. -/
def docFresh : RequestDoc :=
  ⟨"r1", "u1", "txn", Status.QUEUED, 0, "t0", "t0", false, false, none,
    none, none⟩

/-- A worker input whose issuer response is rate limited with hint 30. -/
def rl30 : WorkerInput := ⟨IssuerResponse.rateLimited (some 30), true, "t"⟩

/-- A create call followed by one successful worker step. -/
def opsDone : List Op :=
  [Op.createOp (some "u1") (some "txn") "r1" "t0",
   Op.workerOp "r1" (IssuerResponse.success "LINK") true "t1"]

/-- The document stored at "r1" after `opsDone`. -/
def docDone : RequestDoc :=
  ⟨"r1", "u1", "txn", Status.DONE, 1, "t0", "t1", true, false, some "LINK",
    none, none⟩

/-- The world after `opsDone`. -/
def wDone : WorldState := runOps hashId emptyWorld opsDone

/-- A valid join signal for the issued link, telegram user 7. -/
def upd7 : MemberUpdate := ⟨some "LINK", some "member", some 7⟩

/-- A webhook body carrying `upd7` as `chat_member`. -/
def body7 : WebhookBody := ⟨some upd7, none⟩

/-- The lookup entry stored for `sha256 "LINK" = "LINK"` after `opsDone`. -/
def entryDone : LookupDoc := ⟨"LINK", "r1", "u1", "txn", "t1"⟩

/-! ### Claim theorems -/

/-- C1, counterexample: the claim states that a request receiving only
rate-limited issuer responses reaches FAILED after exactly
`MAX_ATTEMPTS` (= 50) worker steps; on the code, after 50 such steps the
stored status is still QUEUED, not FAILED. -/
theorem C1_counterexample :
    ((workerRun hashId wFresh "r1" (List.replicate MAX_ATTEMPTS rl30)).reqs
        "r1").map RequestDoc.status = some Status.QUEUED ∧
    ((workerRun hashId wFresh "r1" (List.replicate MAX_ATTEMPTS rl30)).reqs
        "r1").map RequestDoc.status ≠ some Status.FAILED := by
  decide

/-- C1 (amended): a request created with `attempts = 0` whose worker
steps all receive rate-limited issuer responses is still QUEUED with
`attempts = k` after any `k ≤ MAX_ATTEMPTS` worker steps, and is FAILED
(with `attempts = MAX_ATTEMPTS`) after every `k ≥ MAX_ATTEMPTS + 1`
steps — so FAILED is reached after exactly `MAX_ATTEMPTS + 1` (= 51)
worker steps, never before and never after. The failing step computes
`attempts + 1`, transitions to FAILED when that exceeds `MAX_ATTEMPTS`,
and schedules no further step. -/
theorem C1_attempt_ceiling (sha256 : String → String) (w : WorldState)
    (rid : String) (doc : RequestDoc) (inputs : List WorkerInput)
    (hdoc : w.reqs rid = some doc) (hq : doc.status = Status.QUEUED)
    (h0 : doc.attempts = 0) (hrl : allRateLimited inputs) :
    (∀ k, k ≤ MAX_ATTEMPTS → k ≤ inputs.length →
      ∃ doc', (workerRun sha256 w rid (inputs.take k)).reqs rid = some doc' ∧
        doc'.status = Status.QUEUED ∧ doc'.attempts = k) ∧
    (∀ k, MAX_ATTEMPTS + 1 ≤ k → k ≤ inputs.length →
      ∃ doc', (workerRun sha256 w rid (inputs.take k)).reqs rid = some doc' ∧
        doc'.status = Status.FAILED ∧ doc'.attempts = MAX_ATTEMPTS) ∧
    (∀ (w' : WorldState) (d : RequestDoc) (issuer : IssuerResponse)
        (sinkOk : Bool) (t : String),
      w'.reqs rid = some d → d.status ≠ Status.DONE →
      MAX_ATTEMPTS < d.attempts + 1 →
      (processStep sha256 w' rid issuer sinkOk t).world.reqs rid =
        some { d with status := Status.FAILED, updatedAt := t } ∧
      (processStep sha256 w' rid issuer sinkOk t).schedules = []) := by
  refine ⟨?_, ?_, ?_⟩
  · intro k hk hklen
    obtain ⟨doc', hd', hq', ha'⟩ := workerRun_rateLimited sha256 rid
      (inputs.take k) w doc hdoc hq
      (by rw [h0, List.length_take]; omega)
      (fun j hj => hrl j (List.take_subset k inputs hj))
    exact ⟨doc', hd', hq', by rw [ha', h0, List.length_take]; omega⟩
  · intro k hk hklen
    have hmin : min MAX_ATTEMPTS k = MAX_ATTEMPTS := by omega
    have hsplit : inputs.take k =
        inputs.take MAX_ATTEMPTS ++ (inputs.take k).drop MAX_ATTEMPTS := by
      conv_lhs => rw [← List.take_append_drop MAX_ATTEMPTS (inputs.take k)]
      rw [List.take_take, hmin]
    rw [hsplit, workerRun_append]
    obtain ⟨doc₅₀, hd₅₀, hq₅₀, ha₅₀⟩ := workerRun_rateLimited sha256 rid
      (inputs.take MAX_ATTEMPTS) w doc hdoc hq
      (by rw [h0, List.length_take]; omega)
      (fun j hj => hrl j (List.take_subset MAX_ATTEMPTS inputs hj))
    have ha₅₀' : doc₅₀.attempts = MAX_ATTEMPTS := by
      rw [ha₅₀, h0, List.length_take]
      omega
    have hne : doc₅₀.status ≠ Status.DONE := by
      rw [hq₅₀]
      decide
    have hnil : (inputs.take k).drop MAX_ATTEMPTS ≠ [] := by
      intro hemp
      have hlen : ((inputs.take k).drop MAX_ATTEMPTS).length = 0 := by
        rw [hemp]
        rfl
      rw [List.length_drop, List.length_take] at hlen
      omega
    obtain ⟨doc', hd', hf', ha'⟩ := workerRun_maxed sha256 rid
      ((inputs.take k).drop MAX_ATTEMPTS) _ doc₅₀ hd₅₀ hne (by omega) hnil
    exact ⟨doc', hd', hf', by omega⟩
  · intro w' d issuer sinkOk t hd hne hc
    have h := processStep_from_maxed sha256 w' rid d issuer sinkOk t hd hne
      (by omega)
    exact ⟨h.1, h.2.1⟩

/-- C1, witness for the amended theorem at a concrete run of 51
rate-limited worker steps. -/
theorem C1_attempt_ceiling_witness :
    ∃ doc', (workerRun hashId wFresh "r1"
        ((List.replicate (MAX_ATTEMPTS + 1) rl30).take (MAX_ATTEMPTS + 1))).reqs
        "r1" = some doc' ∧
      doc'.status = Status.FAILED ∧ doc'.attempts = MAX_ATTEMPTS :=
  (C1_attempt_ceiling hashId wFresh "r1" docFresh
      (List.replicate (MAX_ATTEMPTS + 1) rl30) (by decide) (by decide)
      (by decide) (by decide)).2.1 (MAX_ATTEMPTS + 1) (by decide) (by decide)

/-- C2: in any state reachable from the empty store, a request stored as
DONE is left completely untouched by a further worker step (same status,
no second lookup entry, nothing scheduled or fired), and a request stored
as FAILED never moves back to QUEUED or PROCESSING. -/
theorem C2_terminal_invariant (sha256 : String → String) (ops : List Op)
    (rid : String) (issuer : IssuerResponse) (sinkOk : Bool) (t : String)
    (doc : RequestDoc)
    (hdoc : (runOps sha256 emptyWorld ops).reqs rid = some doc) :
    (doc.status = Status.DONE →
      (processStep sha256 (runOps sha256 emptyWorld ops) rid issuer sinkOk
          t).world = runOps sha256 emptyWorld ops) ∧
    (doc.status = Status.FAILED →
      ∃ doc', (processStep sha256 (runOps sha256 emptyWorld ops) rid issuer
          sinkOk t).world.reqs rid = some doc' ∧
        doc'.status = Status.FAILED ∧ doc'.status ≠ Status.QUEUED ∧
        doc'.status ≠ Status.PROCESSING) := by
  constructor
  · intro hdone
    rw [processStep_done sha256 _ rid doc issuer sinkOk t hdoc hdone]
  · intro hfail
    have hmax : MAX_ATTEMPTS ≤ doc.attempts :=
      runOps_failedInv sha256 ops emptyWorld emptyWorld_failedInv rid doc
        hdoc hfail
    have hne : doc.status ≠ Status.DONE := by
      rw [hfail]
      decide
    obtain ⟨h1, _, _⟩ := processStep_from_maxed sha256 _ rid doc issuer
      sinkOk t hdoc hne hmax
    refine ⟨{ doc with status := Status.FAILED, updatedAt := t }, h1, rfl,
      by simp, by simp⟩

/-- C2, witness: a concrete DONE request is untouched by a further worker
step. -/
theorem C2_terminal_invariant_witness :
    (processStep hashId (runOps hashId emptyWorld opsDone) "r1"
        (IssuerResponse.success "L2") true "t9").world =
      runOps hashId emptyWorld opsDone :=
  (C2_terminal_invariant hashId opsDone "r1" (IssuerResponse.success "L2")
      true "t9" docDone (by decide)).1 (by decide)

/-- C10: in any state reachable from the empty store, a stored attempt
count never exceeds `MAX_ATTEMPTS`; and the FAILED transition taken when
the incremented count exceeds the ceiling persists only the status (and
timestamp) and does not write the incremented attempts value back. -/
theorem C10_attempts_bound (sha256 : String → String) (ops : List Op)
    (rid : String) (doc : RequestDoc)
    (hdoc : (runOps sha256 emptyWorld ops).reqs rid = some doc) :
    doc.attempts ≤ MAX_ATTEMPTS ∧
    (∀ (w : WorldState) (d : RequestDoc) (issuer : IssuerResponse)
        (sinkOk : Bool) (t : String),
      w.reqs rid = some d → d.status ≠ Status.DONE →
      MAX_ATTEMPTS < d.attempts + 1 →
      (processStep sha256 w rid issuer sinkOk t).world.reqs rid =
        some { d with status := Status.FAILED, updatedAt := t } ∧
      (processStep sha256 w rid issuer sinkOk t).writes =
        [⟨rid, ["status", "updatedAt"]⟩]) := by
  constructor
  · exact runOps_attemptsInv sha256 ops emptyWorld emptyWorld_attemptsInv
      rid doc hdoc
  · intro w d issuer sinkOk t hd hne hc
    obtain ⟨h1, _, h3⟩ := processStep_from_maxed sha256 w rid d issuer
      sinkOk t hd hne (by omega)
    exact ⟨h1, h3⟩

/-- C10, witness at a concrete reachable state. -/
theorem C10_attempts_bound_witness : docDone.attempts ≤ MAX_ATTEMPTS :=
  (C10_attempts_bound hashId opsDone "r1" docDone (by decide)).1

/-- A successful worker step under the ceiling issues the PROCESSING
write, the DONE write, and (only when the link event had not fired yet)
the flag write. -/
theorem processStep_success_writes (sha256 : String → String)
    (w : WorldState) (rid : String) (doc : RequestDoc) (link : String)
    (sinkOk : Bool) (t : String) (hdoc : w.reqs rid = some doc)
    (hst : doc.status ≠ Status.DONE)
    (hatt : doc.attempts + 1 ≤ MAX_ATTEMPTS) :
    (processStep sha256 w rid (IssuerResponse.success link) sinkOk t).writes =
      if doc.weLinkEventFired then
        [⟨rid, ["status", "attempts", "updatedAt"]⟩,
         ⟨rid, ["status", "inviteLink", "updatedAt"]⟩]
      else
        [⟨rid, ["status", "attempts", "updatedAt"]⟩,
         ⟨rid, ["status", "inviteLink", "updatedAt"]⟩,
         ⟨rid, ["weLinkEventFired"]⟩] := by
  have hc : ¬ MAX_ATTEMPTS < doc.attempts + 1 := by omega
  by_cases hfl : doc.weLinkEventFired <;>
    simp [processStep, hdoc, hst, hc, hfl]

/-- C3, counterexample: the rate-limit revert inside the worker step
writes only `status` — it does not refresh `updatedAt`, contradicting
the claim that every mutation of a stored Request record does. -/
theorem C3_counterexample :
    (processStep hashId wFresh "r1" (IssuerResponse.rateLimited (some 30))
        true "t1").writes =
      [⟨"r1", ["status", "attempts", "updatedAt"]⟩, ⟨"r1", ["status"]⟩] ∧
    ((processStep hashId wFresh "r1" (IssuerResponse.rateLimited (some 30))
        true "t1").writes.any fun wr => !(wr.fields.contains "updatedAt")) =
      true := by
  decide

/-- C3 (amended): every write to a stored Request record includes a
refresh of `updatedAt`, except two worker-step writes: the rate-limit
revert, whose payload is only `status`, and the link-event flag write,
whose payload is only `weLinkEventFired`. Webhook and create writes
always include `updatedAt`. -/
theorem C3_updatedAt (sha256 : String → String) (w : WorldState)
    (rid : String) (issuer : IssuerResponse) (sinkOk : Bool) (t : String)
    (body : WebhookBody) (userId transactionId : Option String)
    (rid₂ t₂ : String) :
    (∀ wr ∈ (processStep sha256 w rid issuer sinkOk t).writes,
      "updatedAt" ∈ wr.fields ∨ wr.fields = ["status"] ∨
        wr.fields = ["weLinkEventFired"]) ∧
    (∀ wr ∈ (telegramWebhook sha256 w body sinkOk t).writes,
      "updatedAt" ∈ wr.fields) ∧
    (∀ wr ∈ (inviteRequest w userId transactionId rid₂ t₂).writes,
      "updatedAt" ∈ wr.fields) := by
  refine ⟨?_, ?_, ?_⟩
  · rcases hw : w.reqs rid with _ | doc
    · rw [processStep_absent sha256 w rid issuer sinkOk t hw]
      simp
    by_cases hdone : doc.status = Status.DONE
    · rw [processStep_done sha256 w rid doc issuer sinkOk t hw hdone]
      simp
    by_cases hc : MAX_ATTEMPTS < doc.attempts + 1
    · rw [processStep_ceiling sha256 w rid doc issuer sinkOk t hw hdone hc]
      intro wr hwr
      simp only [List.mem_singleton] at hwr
      subst hwr
      simp
    have hatt : doc.attempts + 1 ≤ MAX_ATTEMPTS := by omega
    cases issuer with
    | rateLimited hint =>
      rw [processStep_rateLimited sha256 w rid doc hint sinkOk t hw hdone hatt]
      intro wr hwr
      simp only [List.mem_cons, List.not_mem_nil, or_false] at hwr
      rcases hwr with hwr | hwr <;> subst hwr <;> simp
    | success link =>
      intro wr hwr
      rw [processStep_success_writes sha256 w rid doc link sinkOk t hw hdone
        hatt] at hwr
      cases hfl : doc.weLinkEventFired
      · rw [hfl] at hwr
        simp at hwr
        rcases hwr with hwr | hwr | hwr <;> subst hwr <;> simp
      · rw [hfl] at hwr
        simp at hwr
        rcases hwr with hwr | hwr <;> subst hwr <;> simp
  · rcases hb : bodyUpd body with _ | upd
    · simp [telegramWebhook, hb]
    by_cases hv : validSignal upd = false
    · simp [telegramWebhook, hb, hv]
    have hv' : validSignal upd = true := by
      revert hv
      cases validSignal upd <;> simp
    rcases hl : w.lookup (sha256 (upd.invite_link.getD "")) with _ | entry
    · simp [telegramWebhook, hb, hv', hl]
    rcases hr : w.reqs entry.requestId with _ | reqDoc
    · simp [telegramWebhook, hb, hv', hl, hr]
    by_cases hj : reqDoc.joinEventFired = true
    · rw [telegramWebhook_joined_noop sha256 w body upd entry reqDoc sinkOk t
        hb hv' hl hr hj]
      simp
    have hj' : reqDoc.joinEventFired = false := by
      revert hj
      cases reqDoc.joinEventFired <;> simp
    rw [telegramWebhook_fire sha256 w body upd entry reqDoc sinkOk t hb hv'
      hl hr hj']
    intro wr hwr
    simp only [List.mem_singleton] at hwr
    subst hwr
    simp
  · by_cases hu : truthyStr userId = false
    · simp [inviteRequest, hu]
    · intro wr hwr
      simp [inviteRequest, hu] at hwr
      subst hwr
      simp

/-- C3, witness for the amended theorem: the concrete webhook write
carries `updatedAt`. -/
theorem C3_updatedAt_witness :
    "updatedAt" ∈ (ReqWrite.mk "r1"
      ["joinEventFired", "joinedAt", "telegramUserId", "updatedAt"]).fields :=
  (C3_updatedAt hashId wDone "r1" (IssuerResponse.success "x") true "t9"
      body7 (some "u") (some "x") "r9" "t8").2.1
    ⟨"r1", ["joinEventFired", "joinedAt", "telegramUserId", "updatedAt"]⟩
    (by decide)

/-- C4: when the issuer call is rate limited (and the attempt ceiling is
not yet exceeded), the document is reverted to QUEUED — not left
PROCESSING — with the already-incremented attempt count kept, and exactly
one delayed worker step is scheduled whose delay is the wait hint (10
when the hint is absent, and the hint itself whenever it is a nonzero
number). -/
theorem C4_rate_limit_requeue (sha256 : String → String) (w : WorldState)
    (rid : String) (doc : RequestDoc) (hint : Option Nat) (sinkOk : Bool)
    (t : String) (hdoc : w.reqs rid = some doc)
    (hst : doc.status ≠ Status.DONE)
    (hatt : doc.attempts + 1 ≤ MAX_ATTEMPTS) :
    (processStep sha256 w rid (IssuerResponse.rateLimited hint) sinkOk
        t).world.reqs rid =
      some { doc with
        status := Status.QUEUED
        attempts := doc.attempts + 1
        updatedAt := t } ∧
    (processStep sha256 w rid (IssuerResponse.rateLimited hint) sinkOk
        t).schedules = [(rid, retryAfterOf hint)] ∧
    retryAfterOf none = 10 ∧
    (∀ n : Nat, n ≠ 0 → retryAfterOf (some n) = n) := by
  rw [processStep_rateLimited sha256 w rid doc hint sinkOk t hdoc hst hatt]
  refine ⟨by simp, rfl, rfl, ?_⟩
  intro n hn
  simp [retryAfterOf, hn]

/-- C4, witness: scenario B at a fresh request with wait hint 30. -/
theorem C4_rate_limit_requeue_witness :
    (processStep hashId wFresh "r1" (IssuerResponse.rateLimited (some 30))
        true "t1").world.reqs "r1" =
      some { docFresh with
        status := Status.QUEUED
        attempts := 1
        updatedAt := "t1" } ∧
    (processStep hashId wFresh "r1" (IssuerResponse.rateLimited (some 30))
        true "t1").schedules = [("r1", 30)] ∧
    retryAfterOf none = 10 ∧ retryAfterOf (some 30) = 30 := by
  have h := C4_rate_limit_requeue hashId wFresh "r1" docFresh (some 30) true
    "t1" (by decide) (by decide) (by decide)
  exact ⟨h.1, h.2.1, h.2.2.1, h.2.2.2 30 (by decide)⟩

/-- C5: redemption is idempotent. Two identical valid redemption signals
for the same artifact, handled sequentially with a successful
notification sink, dispatch exactly one join notification in total; the
first sets `joinEventFired` to true and the second is a success-no-op
that changes nothing. -/
theorem C5_idempotent_redemption (sha256 : String → String) (w : WorldState)
    (body : WebhookBody) (upd : MemberUpdate) (entry : LookupDoc)
    (reqDoc : RequestDoc) (t₁ t₂ : String)
    (hb : bodyUpd body = some upd) (hv : validSignal upd = true)
    (hl : w.lookup (sha256 (upd.invite_link.getD "")) = some entry)
    (hr : w.reqs entry.requestId = some reqDoc)
    (hj : reqDoc.joinEventFired = false) :
    (telegramWebhook sha256 w body true t₁).events =
      [(reqDoc.userId, "pass_paid_community_telegram_joined")] ∧
    (∃ doc₁, (telegramWebhook sha256 w body true t₁).world.reqs
        entry.requestId = some doc₁ ∧ doc₁.joinEventFired = true) ∧
    (telegramWebhook sha256 (telegramWebhook sha256 w body true t₁).world
        body true t₂).world = (telegramWebhook sha256 w body true t₁).world ∧
    (telegramWebhook sha256 (telegramWebhook sha256 w body true t₁).world
        body true t₂).events = [] ∧
    (telegramWebhook sha256 (telegramWebhook sha256 w body true t₁).world
        body true t₂).response = "ok" := by
  have h1 := telegramWebhook_fire sha256 w body upd entry reqDoc true t₁ hb
    hv hl hr hj
  have hw₁ : (telegramWebhook sha256 w body true t₁).world =
      ⟨setReq w.reqs entry.requestId { reqDoc with
        joinEventFired := true
        joinedAt := some t₁
        telegramUserId := some (upd.userId.getD 0)
        updatedAt := t₁ }, w.lookup⟩ := by
    rw [h1]
  have hl₂ : (⟨setReq w.reqs entry.requestId { reqDoc with
        joinEventFired := true
        joinedAt := some t₁
        telegramUserId := some (upd.userId.getD 0)
        updatedAt := t₁ }, w.lookup⟩ : WorldState).lookup
      (sha256 (upd.invite_link.getD "")) = some entry := hl
  have hr₂ : (⟨setReq w.reqs entry.requestId { reqDoc with
        joinEventFired := true
        joinedAt := some t₁
        telegramUserId := some (upd.userId.getD 0)
        updatedAt := t₁ }, w.lookup⟩ : WorldState).reqs entry.requestId =
      some { reqDoc with
        joinEventFired := true
        joinedAt := some t₁
        telegramUserId := some (upd.userId.getD 0)
        updatedAt := t₁ } := by
    simp
  have h2 := telegramWebhook_joined_noop sha256
    ⟨setReq w.reqs entry.requestId { reqDoc with
        joinEventFired := true
        joinedAt := some t₁
        telegramUserId := some (upd.userId.getD 0)
        updatedAt := t₁ }, w.lookup⟩ body upd entry
    { reqDoc with
        joinEventFired := true
        joinedAt := some t₁
        telegramUserId := some (upd.userId.getD 0)
        updatedAt := t₁ } true t₂ hb hv hl₂ hr₂ rfl
  refine ⟨by rw [h1], ?_, ?_, ?_, ?_⟩
  · refine ⟨{ reqDoc with
      joinEventFired := true
      joinedAt := some t₁
      telegramUserId := some (upd.userId.getD 0)
      updatedAt := t₁ }, ?_, rfl⟩
    rw [hw₁]
    simp
  · rw [hw₁, h2]
  · rw [hw₁, h2]
  · rw [hw₁, h2]

/-- C5, witness: scenario D twice at the concrete issued link. -/
theorem C5_idempotent_redemption_witness :
    (telegramWebhook hashId wDone body7 true "t2").events =
      [("u1", "pass_paid_community_telegram_joined")] ∧
    (telegramWebhook hashId (telegramWebhook hashId wDone body7 true
        "t2").world body7 true "t3").world =
      (telegramWebhook hashId wDone body7 true "t2").world ∧
    (telegramWebhook hashId (telegramWebhook hashId wDone body7 true
        "t2").world body7 true "t3").events = [] ∧
    (telegramWebhook hashId (telegramWebhook hashId wDone body7 true
        "t2").world body7 true "t3").response = "ok" := by
  have h := C5_idempotent_redemption hashId wDone body7 upd7 entryDone
    docDone "t2" "t3" (by decide) (by decide) (by decide) (by decide)
    (by decide)
  exact ⟨h.1, h.2.2.1, h.2.2.2.1, h.2.2.2.2⟩

/-- C6: round-trip. A worker step that successfully issues an artifact
leaves a Hash Index entry at the fingerprint of the artifact value whose
`requestId` is the id of the request that created it. -/
theorem C6_round_trip (sha256 : String → String) (w : WorldState)
    (rid : String) (doc : RequestDoc) (link : String) (sinkOk : Bool)
    (t : String) (hdoc : w.reqs rid = some doc)
    (hst : doc.status ≠ Status.DONE)
    (hatt : doc.attempts + 1 ≤ MAX_ATTEMPTS) :
    ∃ entry, (processStep sha256 w rid (IssuerResponse.success link) sinkOk
        t).world.lookup (sha256 link) = some entry ∧
      entry.requestId = rid := by
  rw [processStep_success_lookup sha256 w rid doc link sinkOk t hdoc hst hatt]
  exact ⟨⟨link, rid, doc.userId, doc.transactionId, t⟩, by simp, rfl⟩

/-- C6, witness at the fresh request and a concrete link. -/
theorem C6_round_trip_witness :
    ∃ entry, (processStep hashId wFresh "r1" (IssuerResponse.success "LINK")
        true "t1").world.lookup (hashId "LINK") = some entry ∧
      entry.requestId = "r1" :=
  C6_round_trip hashId wFresh "r1" docFresh "LINK" true "t1" (by decide)
    (by decide) (by decide)

/-- C7: the create endpoint. With a truthy `userId` exactly one new
QUEUED document with zero attempts and false event flags is written at
the fresh id, nothing else changes, exactly one immediate schedule call
is made, and the accepted response is returned; with a missing or empty
`userId` a client error is returned and nothing is written or
scheduled. -/
theorem C7_create (w : WorldState) (userId transactionId : Option String)
    (rid t : String) :
    (truthyStr userId = true →
      (inviteRequest w userId transactionId rid t).world.reqs rid =
        some { requestId := rid
               userId := userId.getD ""
               transactionId := transactionId.getD ""
               status := Status.QUEUED
               attempts := 0
               createdAt := t
               updatedAt := t
               weLinkEventFired := false
               joinEventFired := false
               inviteLink := none
               joinedAt := none
               telegramUserId := none } ∧
      (∀ r, r ≠ rid →
        (inviteRequest w userId transactionId rid t).world.reqs r =
          w.reqs r) ∧
      (inviteRequest w userId transactionId rid t).world.lookup = w.lookup ∧
      (inviteRequest w userId transactionId rid t).schedules = [(rid, 0)] ∧
      (inviteRequest w userId transactionId rid t).writes.length = 1 ∧
      (inviteRequest w userId transactionId rid t).response =
        CreateResponse.success true "queued" rid) ∧
    (truthyStr userId = false →
      (inviteRequest w userId transactionId rid t).world = w ∧
      (inviteRequest w userId transactionId rid t).schedules = [] ∧
      (inviteRequest w userId transactionId rid t).writes = [] ∧
      (inviteRequest w userId transactionId rid t).response =
        CreateResponse.badRequest "Missing userId") := by
  constructor
  · intro hu
    have hu' : ¬ truthyStr userId = false := by
      rw [hu]
      decide
    exact ⟨by simp [inviteRequest, hu'],
      fun r hr => by simp [inviteRequest, hu', setReq_other _ _ _ _ hr],
      by simp [inviteRequest, hu'], by simp [inviteRequest, hu'],
      by simp [inviteRequest, hu'], by simp [inviteRequest, hu']⟩
  · intro hu
    exact ⟨by simp [inviteRequest, hu], by simp [inviteRequest, hu],
      by simp [inviteRequest, hu], by simp [inviteRequest, hu]⟩

/-- C7, witness: scenario A, and the missing-userId rejection. -/
theorem C7_create_witness :
    (inviteRequest emptyWorld (some "u1") (some "txn") "r1" "t0").world.reqs
        "r1" = some docFresh ∧
    (inviteRequest emptyWorld (some "u1") (some "txn") "r1" "t0").schedules =
      [("r1", 0)] ∧
    (inviteRequest emptyWorld (some "u1") (some "txn") "r1" "t0").response =
      CreateResponse.success true "queued" "r1" ∧
    (inviteRequest emptyWorld none (some "txn") "r2" "t0").response =
      CreateResponse.badRequest "Missing userId" ∧
    (inviteRequest emptyWorld none (some "txn") "r2" "t0").schedules = [] := by
  have h := (C7_create emptyWorld (some "u1") (some "txn") "r1" "t0").1
    (by decide)
  have h₂ := (C7_create emptyWorld none (some "txn") "r2" "t0").2 (by decide)
  exact ⟨h.1, h.2.2.2.1, h.2.2.2.2.2, h₂.2.2.2, h₂.2.1⟩

/-- C8: redemption signals without a truthy artifact value, without a
truthy redeemer id, or with an unrecognized status marker are ignored
with an acknowledgement and mutate nothing; and a valid signal whose
fingerprint has no Hash Index entry yields the orphan outcome with no
store mutation. -/
theorem C8_webhook_validation (sha256 : String → String) (w : WorldState)
    (body : WebhookBody) (sinkOk : Bool) (t : String) :
    (bodyUpd body = none →
      telegramWebhook sha256 w body sinkOk t = ⟨w, [], [], [], "ignored"⟩) ∧
    (∀ upd, bodyUpd body = some upd →
      (truthyStr upd.invite_link = false ∨ truthyNat upd.userId = false ∨
        statusRecognized upd.status = false) →
      telegramWebhook sha256 w body sinkOk t = ⟨w, [], [], [], "ignored"⟩) ∧
    (∀ upd, bodyUpd body = some upd → validSignal upd = true →
      w.lookup (sha256 (upd.invite_link.getD "")) = none →
      telegramWebhook sha256 w body sinkOk t = ⟨w, [], [], [], "orphan"⟩) := by
  refine ⟨?_, ?_, ?_⟩
  · intro hb
    simp [telegramWebhook, hb]
  · intro upd hb hbad
    have hv : validSignal upd = false := by
      rcases hbad with h | h | h <;> simp [validSignal, h]
    simp [telegramWebhook, hb, hv]
  · intro upd hb hv hl
    simp [telegramWebhook, hb, hv, hl]

/-- C8, witness: a signal with an unrecognized status marker is ignored
at a concrete reachable state. -/
theorem C8_webhook_validation_witness :
    telegramWebhook hashId wDone ⟨some ⟨some "LINK", some "kicked", some 7⟩,
        none⟩ true "t5" = ⟨wDone, [], [], [], "ignored"⟩ :=
  (C8_webhook_validation hashId wDone
      ⟨some ⟨some "LINK", some "kicked", some 7⟩, none⟩ true "t5").2.1
    ⟨some "LINK", some "kicked", some 7⟩ (by decide)
    (Or.inr (Or.inr (by decide)))

/-- A webhook delivery never touches a stored document whose join event
already fired: either the signal resolves to that document and
short-circuits, or it resolves elsewhere. -/
theorem telegramWebhook_joinFired_preserves (sha256 : String → String)
    (w : WorldState) (body : WebhookBody) (sinkOk : Bool) (t : String)
    (rid : String) (doc : RequestDoc) (hdoc : w.reqs rid = some doc)
    (hj : doc.joinEventFired = true) :
    (telegramWebhook sha256 w body sinkOk t).world.reqs rid = some doc := by
  rcases hb : bodyUpd body with _ | upd
  · simp [telegramWebhook, hb, hdoc]
  by_cases hv : validSignal upd = false
  · simp [telegramWebhook, hb, hv, hdoc]
  have hv' : validSignal upd = true := by
    revert hv
    cases validSignal upd <;> simp
  rcases hl : w.lookup (sha256 (upd.invite_link.getD "")) with _ | entry
  · simp [telegramWebhook, hb, hv', hl, hdoc]
  rcases hr : w.reqs entry.requestId with _ | reqDoc
  · simp [telegramWebhook, hb, hv', hl, hr, hdoc]
  by_cases hjr : reqDoc.joinEventFired = true
  · rw [telegramWebhook_joined_noop sha256 w body upd entry reqDoc sinkOk t
      hb hv' hl hr hjr]
    exact hdoc
  have hjr' : reqDoc.joinEventFired = false := by
    revert hjr
    cases reqDoc.joinEventFired <;> simp
  rw [telegramWebhook_fire sha256 w body upd entry reqDoc sinkOk t hb hv' hl
    hr hjr']
  by_cases he : rid = entry.requestId
  · exfalso
    rw [← he, hdoc] at hr
    injection hr with hr
    rw [← hr] at hjr'
    rw [hj] at hjr'
    cases hjr'
  · simp [setReq_other _ _ _ _ he, hdoc]

/-- The operations reaching the C9 counterexample state: a request is
created and issued, then a first redemption signal (redeemer 7) arrives
while the notification sink fails. -/
def ops9 : List Op :=
  [Op.createOp (some "u1") (some "txn") "rx" "t0",
   Op.workerOp "rx" (IssuerResponse.success "LNK") true "t1",
   Op.webhookOp ⟨some ⟨some "LNK", some "member", some 7⟩, none⟩ false "t2"]

/-- C9, counterexample: after `ops9` the record stores redeemer 7 with
`joinEventFired = false` (the sink failed), and a later redemption signal
from redeemer 8 overwrites the stored redeemer id with 8 — so the
redeemer identifier is not set at most once across redemption-handler
invocations. -/
theorem C9_counterexample :
    ((runOps hashId emptyWorld ops9).reqs "rx").map
        RequestDoc.telegramUserId = some (some 7) ∧
    ((runOps hashId emptyWorld (ops9 ++
        [Op.webhookOp ⟨some ⟨some "LNK", some "member", some 8⟩, none⟩ true
          "t3"])).reqs "rx").map RequestDoc.telegramUserId =
      some (some 8) := by
  decide

/-- C9 (amended): the redeemer identifier is stable only from the moment
the join notification succeeds. Once a stored document has
`joinEventFired = true`, no sequence of further redemption-handler
invocations changes the document at all — in particular its
`telegramUserId` is never overwritten. (While `joinEventFired` is still
false after a failed notification, a later signal may overwrite the
recorded redeemer, as the counterexample shows.) -/
theorem C9_redeemer_once (sha256 : String → String) (w : WorldState)
    (rid : String) (doc : RequestDoc) (sigs : List WebhookInput)
    (hdoc : w.reqs rid = some doc) (hj : doc.joinEventFired = true) :
    (webhookRun sha256 w sigs).reqs rid = some doc := by
  induction sigs generalizing w with
  | nil => exact hdoc
  | cons i is ih =>
    rw [webhookRun]
    exact ih _ (telegramWebhook_joinFired_preserves sha256 w i.body i.sinkOk
      i.t rid doc hdoc hj)

/-- The world after a created, issued and successfully redeemed request
(redeemer 7, sink success). -/
def w9 : WorldState := runOps hashId emptyWorld
  [Op.createOp (some "u1") (some "txn") "rx" "t0",
   Op.workerOp "rx" (IssuerResponse.success "LNK") true "t1",
   Op.webhookOp ⟨some ⟨some "LNK", some "member", some 7⟩, none⟩ true "t2"]

/-- The document stored at "rx" in `w9`. -/
def doc9 : RequestDoc :=
  ⟨"rx", "u1", "txn", Status.DONE, 1, "t0", "t2", true, true, some "LNK",
    some "t2", some 7⟩

/-- C9, witness for the amended theorem: a later signal from redeemer 8
leaves the successfully redeemed document (redeemer 7) unchanged. -/
theorem C9_redeemer_once_witness :
    (webhookRun hashId w9
        [⟨⟨some ⟨some "LNK", some "member", some 8⟩, none⟩, true,
          "t4"⟩]).reqs "rx" = some doc9 :=
  C9_redeemer_once hashId w9 "rx" doc9
    [⟨⟨some ⟨some "LNK", some "member", some 8⟩, none⟩, true, "t4"⟩]
    (by decide) (by decide)

end TgInvite
